import Mathlib

/-!
Verification of the market-structure detection pipeline
(`src/analysis/market_structure/{swings,structure,bos,choch}.py`).

The Python code is shallowly embedded: prices (`Decimal`) become `ℚ`,
UTC timestamps become `ℕ` (only their strict order matters), Python
lists become `List`, raised `ValueError`s become `Except.error`, and the
`set` of broken swing indices becomes a `List ℕ` queried by membership.
Fields of `MarketBar` not read by this pipeline (symbol, timeframe,
open, volume) are omitted; the pipeline reads only `timestamp_utc`,
`high`, `low` and `close`.
-/

namespace MarketStructure

/-- Embedding of `MarketBar` (src/data/models.py), restricted to the four
fields the market-structure pipeline reads. -/
structure MarketBar where
  timestamp_utc : ℕ
  high : ℚ
  low : ℚ
  close : ℚ
  deriving DecidableEq, Repr, Inhabited

/-- `SwingType` enum from swings.py. -/
inductive SwingType where
  | HIGH
  | LOW
  deriving DecidableEq, Repr, Inhabited

/-- Embedding of the frozen dataclass `SwingPoint` (swings.py). -/
structure SwingPoint where
  timestamp : ℕ
  price : ℚ
  swing_type : SwingType
  bar_index : ℕ
  lookback : ℕ
  strength : ℕ
  deriving DecidableEq, Repr, Inhabited

/-- `bars[i]` — Python indexing; all uses below are in range, so the
default value is never observed by the theorems. -/
def barAt (bars : List MarketBar) (i : ℕ) : MarketBar :=
  bars.getD i default

/-- `SwingDetector._is_swing_high` (swings.py lines 157-184): the left
window `[i-lookback, i-1]` must be strictly below `bars[i].high`, the
right window `[i+1, i+lookback]` at most equal to it.  The Python loop
`for j in range(index - lookback, index)` is rendered as `j = i - lb + k`
for `k < lb`; every caller has `lb ≤ i`. -/
def isSwingHigh (lb : ℕ) (bars : List MarketBar) (i : ℕ) : Bool :=
  let c := (barAt bars i).high
  ((List.range lb).all fun k => decide ((barAt bars (i - lb + k)).high < c)) &&
  ((List.range lb).all fun k => decide ((barAt bars (i + 1 + k)).high ≤ c))

/-- `SwingDetector._is_swing_low` (swings.py lines 186-213): symmetric,
strictly above on the left, at least equal on the right. -/
def isSwingLow (lb : ℕ) (bars : List MarketBar) (i : ℕ) : Bool :=
  let c := (barAt bars i).low
  ((List.range lb).all fun k => decide (c < (barAt bars (i - lb + k)).low)) &&
  ((List.range lb).all fun k => decide (c ≤ (barAt bars (i + 1 + k)).low))

/-- `SwingDetector._calculate_strength` (swings.py lines 215-249): walk
the window `range(index - lookback, index + lookback + 1)`, skip the
swing bar, and count the bars whose extreme is strictly worse than the
swing price. -/
def calcStrength (lb : ℕ) (bars : List MarketBar) (i : ℕ) (t : SwingType) : ℕ :=
  let p := if t = SwingType.HIGH then (barAt bars i).high else (barAt bars i).low
  ((List.range (2 * lb + 1)).filter fun k =>
    let j := i - lb + k
    decide (j ≠ i) &&
      (if t = SwingType.HIGH then decide ((barAt bars j).high < p)
       else decide (p < (barAt bars j).low))).length

/-- `SwingDetector._validate_bar_sequence` (swings.py lines 251-264) as a
predicate: `true` exactly when no adjacent pair violates strict
timestamp order (the Python code raises on the first violation). -/
def strictTimeOrdered (bars : List MarketBar) : Bool :=
  (List.range (bars.length - 1)).all fun k =>
    decide ((barAt bars k).timestamp_utc < (barAt bars (k + 1)).timestamp_utc)

/-- The HIGH `SwingPoint` built at loop index `i` (swings.py lines
126-133). -/
def highPointAt (lb : ℕ) (bars : List MarketBar) (i : ℕ) : SwingPoint :=
  { timestamp := (barAt bars i).timestamp_utc
    price := (barAt bars i).high
    swing_type := SwingType.HIGH
    bar_index := i
    lookback := lb
    strength := calcStrength lb bars i SwingType.HIGH }

/-- The LOW `SwingPoint` built at loop index `i` (swings.py lines
140-147). -/
def lowPointAt (lb : ℕ) (bars : List MarketBar) (i : ℕ) : SwingPoint :=
  { timestamp := (barAt bars i).timestamp_utc
    price := (barAt bars i).low
    swing_type := SwingType.LOW
    bar_index := i
    lookback := lb
    strength := calcStrength lb bars i SwingType.LOW }

/-- The swings appended at loop index `i` of `detect_swings` (swings.py
lines 123-150): the high-swing check runs first, then the low-swing
check, each appending one `SwingPoint`. -/
def emitAt (lb : ℕ) (bars : List MarketBar) (i : ℕ) : List SwingPoint :=
  (if isSwingHigh lb bars i then [highPointAt lb bars i] else []) ++
  (if isSwingLow lb bars i then [lowPointAt lb bars i] else [])

/-- `SwingDetector.detect_swings` (swings.py lines 90-155): empty input
returns `[]` before validation; a time-order violation raises; fewer
than `2*lookback + 1` bars returns `[]`; otherwise the loop runs over
`range(lookback, len(bars) - lookback)` and the result is sorted by
timestamp (Python's stable `list.sort`, embedded as `mergeSort`). -/
def detect_swings (lb : ℕ) (bars : List MarketBar) : Except String (List SwingPoint) :=
  if bars.isEmpty then Except.ok []
  else if !strictTimeOrdered bars then Except.error "Bars must be time-ordered"
  else if bars.length < 2 * lb + 1 then Except.ok []
  else Except.ok
    (((List.range' lb (bars.length - 2 * lb)).flatMap (emitAt lb bars)).mergeSort
      fun a b => a.timestamp ≤ b.timestamp)

/-- The mutable state of a `SwingDetector` instance: the configured
lookback plus the three statistics counters initialised to 0 in
`__init__` (swings.py lines 83-88). -/
structure SwingDetector where
  lookback : ℕ
  swings_detected : ℕ
  highs_detected : ℕ
  lows_detected : ℕ
  deriving DecidableEq, Repr

/-- `SwingDetector.__init__` (swings.py lines 69-88): raises when
`lookback < 1` (the parameter is a Python `int`, hence `ℤ`). -/
def mkSwingDetector (lookback : ℤ) : Except String SwingDetector :=
  if lookback < 1 then Except.error "Lookback must be >= 1"
  else Except.ok { lookback := lookback.toNat
                   swings_detected := 0, highs_detected := 0, lows_detected := 0 }

/-- Number of HIGH swings in a result list. -/
def countHighs (l : List SwingPoint) : ℕ :=
  (l.filter fun s => decide (s.swing_type = SwingType.HIGH)).length

/-- Number of LOW swings in a result list. -/
def countLows (l : List SwingPoint) : ℕ :=
  (l.filter fun s => decide (s.swing_type = SwingType.LOW)).length

/-- The method call `detector.detect_swings(bars)` including its effect
on the statistics counters: each emitted swing increments
`swings_detected` and the matching `highs_detected`/`lows_detected`
(swings.py lines 135-136 and 149-150); a raised `ValueError` happens
before any increment. -/
def SwingDetector.detectSwings (d : SwingDetector) (bars : List MarketBar) :
    Except String (List SwingPoint) × SwingDetector :=
  match detect_swings d.lookback bars with
  | Except.error e => (Except.error e, d)
  | Except.ok sw =>
    (Except.ok sw,
      { d with
        swings_detected := d.swings_detected + sw.length
        highs_detected := d.highs_detected + countHighs sw
        lows_detected := d.lows_detected + countLows sw })

/-- `SwingDetector.get_statistics` (swings.py lines 276-283), as the
tuple (lookback, total_swings, highs, lows). -/
def SwingDetector.get_statistics (d : SwingDetector) : ℕ × ℕ × ℕ × ℕ :=
  (d.lookback, d.swings_detected, d.highs_detected, d.lows_detected)

/-- `SwingDetector.reset_statistics` (swings.py lines 285-289). -/
def SwingDetector.reset_statistics (d : SwingDetector) : SwingDetector :=
  { d with swings_detected := 0, highs_detected := 0, lows_detected := 0 }

/-- `TrendState` enum from structure.py. -/
inductive TrendState where
  | BULLISH
  | BEARISH
  | RANGING
  | UNKNOWN
  deriving DecidableEq, Repr, Inhabited

/-- Embedding of the frozen dataclass `StructureState` (structure.py). -/
structure StructureState where
  trend : TrendState
  last_swing_high : Option SwingPoint
  last_swing_low : Option SwingPoint
  higher_highs : ℕ
  lower_lows : ℕ
  timestamp : Option ℕ
  deriving DecidableEq, Repr

/-- State of a `StructureAnalyzer` instance: just the configured
`min_swings_for_trend` (a Python `int`, hence `ℤ`). -/
structure StructureAnalyzer where
  min_swings_for_trend : ℤ
  deriving DecidableEq, Repr

/-- `StructureAnalyzer.__init__` (structure.py lines 64-71): the body
only stores the parameter — it contains no validation and no `raise`,
so construction always succeeds.  The `Except` result type records that
a Python constructor could in principle raise. -/
def mkStructureAnalyzer (min_swings_for_trend : ℤ) : Except String StructureAnalyzer :=
  Except.ok { min_swings_for_trend := min_swings_for_trend }

/-- The HIGH-only sub-sequence (structure.py line 91), order preserved. -/
def highsOf (swings : List SwingPoint) : List SwingPoint :=
  swings.filter fun s => decide (s.swing_type = SwingType.HIGH)

/-- The LOW-only sub-sequence (structure.py line 92), order preserved. -/
def lowsOf (swings : List SwingPoint) : List SwingPoint :=
  swings.filter fun s => decide (s.swing_type = SwingType.LOW)

/-- The higher-highs loop of `analyze_structure` (structure.py lines
99-105): over consecutive pairs, increment on a strict increase, reset
to 0 otherwise.  The `len(highs) >= 2` guard is subsumed: with fewer
than two elements there are no pairs and the count stays 0. -/
def higher_highs_count (highs : List SwingPoint) : ℕ :=
  (highs.zip highs.tail).foldl
    (fun c p => if p.1.price < p.2.price then c + 1 else 0) 0

/-- The lower-lows loop of `analyze_structure` (structure.py lines
108-114): increment on a strict decrease, reset to 0 otherwise. -/
def lower_lows_count (lows : List SwingPoint) : ℕ :=
  (lows.zip lows.tail).foldl
    (fun c p => if p.2.price < p.1.price then c + 1 else 0) 0

/-- Python's `l[-1] > l[-2]` on the last two swing prices, guarded by
`len(l) >= 2` (structure.py line 147). -/
def lastTwoRising (l : List SwingPoint) : Bool :=
  decide (2 ≤ l.length) &&
  decide ((l.getD (l.length - 2) default).price < (l.getD (l.length - 1) default).price)

/-- Python's `l[-1] < l[-2]` on the last two swing prices, guarded by
`len(l) >= 2` (structure.py line 153). -/
def lastTwoFalling (l : List SwingPoint) : Bool :=
  decide (2 ≤ l.length) &&
  decide ((l.getD (l.length - 1) default).price < (l.getD (l.length - 2) default).price)

/-- `StructureAnalyzer._determine_trend` (structure.py lines 132-157).
The Python bullish branch is a nested `if`; when its inner condition
fails control falls through to the bearish check, so the nesting
flattens to a conjunction in an `if`-chain. -/
def determine_trend (m : ℤ) (highs lows : List SwingPoint) (hh ll : ℕ) : TrendState :=
  if (highs.length : ℤ) < m ∨ (lows.length : ℤ) < m then TrendState.UNKNOWN
  else if m - 1 ≤ (hh : ℤ) ∧ lastTwoRising lows then TrendState.BULLISH
  else if m - 1 ≤ (ll : ℤ) ∧ lastTwoFalling highs then TrendState.BEARISH
  else TrendState.RANGING

/-- `StructureAnalyzer.analyze_structure` (structure.py lines 73-130). -/
def analyze_structure (m : ℤ) (swings : List SwingPoint) : StructureState :=
  if swings.isEmpty then
    { trend := TrendState.UNKNOWN, last_swing_high := none, last_swing_low := none
      higher_highs := 0, lower_lows := 0, timestamp := none }
  else
    let highs := highsOf swings
    let lows := lowsOf swings
    let hh := higher_highs_count highs
    let ll := lower_lows_count lows
    { trend := determine_trend m highs lows hh ll
      last_swing_high := highs.getLast?
      last_swing_low := lows.getLast?
      higher_highs := hh
      lower_lows := ll
      timestamp := swings.getLast?.map fun s => s.timestamp }

/-- `BOSDirection` enum from bos.py. -/
inductive BOSDirection where
  | BULLISH
  | BEARISH
  deriving DecidableEq, Repr

/-- Embedding of the frozen dataclass `BOSEvent` (bos.py). -/
structure BOSEvent where
  direction : BOSDirection
  broken_swing : SwingPoint
  break_price : ℚ
  break_bar : MarketBar
  timestamp : ℕ
  deriving DecidableEq, Repr

/-- The `relevant_swings` filter shared by bos.py (lines 101-104) and
choch.py (lines 93-96): swings strictly before bar `i` whose index is
not in the broken set. -/
def eligibleSwings (swings : List SwingPoint) (broken : List ℕ) (i : ℕ) : List SwingPoint :=
  swings.filter fun s => decide (s.bar_index < i) && decide (s.bar_index ∉ broken)

/-- One iteration of the `detect_bos` loop (bos.py lines 99-143), acting
on the state (events so far, broken indices so far).  `relevant` is
computed once at the top of the iteration, so the bearish block sees the
same candidate list the bullish block saw even if the bullish block just
marked a swing broken — exactly as in the Python code. -/
def bosStep (useBody : Bool) (swings : List SwingPoint)
    (st : List BOSEvent × List ℕ) (i : ℕ) (bar : MarketBar) :
    List BOSEvent × List ℕ :=
  let relevant := eligibleSwings swings st.2 i
  if relevant.isEmpty then st
  else
    let st1 :=
      match (relevant.filter fun s => decide (s.swing_type = SwingType.HIGH)).getLast? with
      | none => st
      | some lastHigh =>
        let bp := if useBody then bar.close else bar.high
        if lastHigh.price < bp then
          (st.1 ++ [{ direction := BOSDirection.BULLISH, broken_swing := lastHigh
                      break_price := bp, break_bar := bar, timestamp := bar.timestamp_utc }],
           st.2 ++ [lastHigh.bar_index])
        else st
    match (relevant.filter fun s => decide (s.swing_type = SwingType.LOW)).getLast? with
    | none => st1
    | some lastLow =>
      let bp := if useBody then bar.close else bar.low
      if bp < lastLow.price then
        (st1.1 ++ [{ direction := BOSDirection.BEARISH, broken_swing := lastLow
                     break_price := bp, break_bar := bar, timestamp := bar.timestamp_utc }],
         st1.2 ++ [lastLow.bar_index])
      else st1

/-- `BOSDetector.detect_bos` (bos.py lines 76-145): guard
`if not swings or len(bars) < 2`, then `for i, bar in enumerate(bars)`
threading the events list and the broken-index set. -/
def detect_bos (useBody : Bool) (bars : List MarketBar) (swings : List SwingPoint) :
    List BOSEvent :=
  if swings.isEmpty || bars.length < 2 then []
  else (bars.enum.foldl (fun st p => bosStep useBody swings st p.1 p.2) ([], [])).1

/-- `CHoCHType` enum from choch.py. -/
inductive CHoCHType where
  | BULLISH_TO_BEARISH
  | BEARISH_TO_BULLISH
  deriving DecidableEq, Repr

/-- Embedding of the frozen dataclass `CHoCHEvent` (choch.py). -/
structure CHoCHEvent where
  choch_type : CHoCHType
  broken_swing : SwingPoint
  break_price : ℚ
  break_bar : MarketBar
  prior_trend : TrendState
  timestamp : ℕ
  deriving DecidableEq, Repr

/-- One iteration of the `detect_choch` loop (choch.py lines 92-139). -/
def chochStep (useBody : Bool) (trend : TrendState) (swings : List SwingPoint)
    (st : List CHoCHEvent × List ℕ) (i : ℕ) (bar : MarketBar) :
    List CHoCHEvent × List ℕ :=
  let relevant := eligibleSwings swings st.2 i
  if relevant.isEmpty then st
  else if trend = TrendState.BULLISH then
    match (relevant.filter fun s => decide (s.swing_type = SwingType.LOW)).getLast? with
    | none => st
    | some lastLow =>
      let bp := if useBody then bar.close else bar.low
      if bp < lastLow.price then
        (st.1 ++ [{ choch_type := CHoCHType.BULLISH_TO_BEARISH, broken_swing := lastLow
                    break_price := bp, break_bar := bar, prior_trend := trend
                    timestamp := bar.timestamp_utc }],
         st.2 ++ [lastLow.bar_index])
      else st
  else if trend = TrendState.BEARISH then
    match (relevant.filter fun s => decide (s.swing_type = SwingType.HIGH)).getLast? with
    | none => st
    | some lastHigh =>
      let bp := if useBody then bar.close else bar.high
      if lastHigh.price < bp then
        (st.1 ++ [{ choch_type := CHoCHType.BEARISH_TO_BULLISH, broken_swing := lastHigh
                    break_price := bp, break_bar := bar, prior_trend := trend
                    timestamp := bar.timestamp_utc }],
         st.2 ++ [lastHigh.bar_index])
      else st
  else st

/-- `CHoCHDetector.detect_choch` (choch.py lines 69-141): RANGING and
UNKNOWN trends return `[]` immediately; otherwise the bar loop runs with
its own local broken-index set. -/
def detect_choch (useBody : Bool) (bars : List MarketBar) (swings : List SwingPoint)
    (trend : TrendState) : List CHoCHEvent :=
  if trend = TrendState.RANGING ∨ trend = TrendState.UNKNOWN then []
  else (bars.enum.foldl (fun st p => chochStep useBody trend swings st p.1 p.2) ([], [])).1

/-! ## Concrete inputs used by witnesses and counterexamples -/

/-- Bar builder for concrete scenarios. -/
def mkBar (t : ℕ) (h l c : ℚ) : MarketBar :=
  { timestamp_utc := t, high := h, low := l, close := c }

/-- A non-empty bar list whose timestamps 5, 3, 4 are not strictly
increasing. -/
def badBars : List MarketBar := [mkBar 5 10 5 7, mkBar 3 11 5 7, mkBar 4 13 3 12]

/-- A swing high at bar index 0, price 10. -/
def cexHigh : SwingPoint :=
  { timestamp := 9, price := 10, swing_type := SwingType.HIGH
    bar_index := 0, lookback := 1, strength := 0 }

/-- A freshly constructed `SwingDetector(lookback=1)`. -/
def d0 : SwingDetector := { lookback := 1, swings_detected := 0, highs_detected := 0, lows_detected := 0 }

/-- Three ordered bars whose middle bar is a lone swing high (price 20). -/
def barsA9 : List MarketBar := [mkBar 0 10 1 5, mkBar 1 20 2 15, mkBar 2 10 (3/2) 5]

/-- Three ordered bars whose middle bar is a lone swing high (price 30). -/
def barsB9 : List MarketBar := [mkBar 0 10 1 5, mkBar 1 30 2 15, mkBar 2 10 1 5]

/-- The break-tracking invariant shared by both detectors' scan states,
abstracted over the event type: every recorded event's broken index is
in the broken set, all recorded events break pairwise distinct swings,
and two events breaking co-indexed swings come from the same bar. -/
def brokenInv {ε : Type} (bswing : ε → SwingPoint) (bbar : ε → MarketBar)
    (st : List ε × List ℕ) : Prop :=
  (∀ e ∈ st.1, (bswing e).bar_index ∈ st.2) ∧
  st.1.Pairwise fun a b => bswing a ≠ bswing b ∧
    ((bswing a).bar_index = (bswing b).bar_index → bbar a = bbar b)

/-- A swing high at bar index 1, price 10. -/
def sw1 : SwingPoint :=
  { timestamp := 1, price := 10, swing_type := SwingType.HIGH
    bar_index := 1, lookback := 1, strength := 0 }

/-- A swing low at bar index 1, price 5 — the same bar as `sw1`. -/
def sw2 : SwingPoint :=
  { timestamp := 1, price := 5, swing_type := SwingType.LOW
    bar_index := 1, lookback := 1, strength := 0 }

/-- Four ordered bars whose last bar closes below `sw2`'s price. -/
def barsB : List MarketBar :=
  [mkBar 0 9 6 7, mkBar 1 10 5 7, mkBar 2 12 3 7, mkBar 3 9 4 4]

/-- Four ordered bars: bar 2 closes above `sw1`'s price (bullish break),
bar 3 closes below `sw2`'s price. -/
def barsC10 : List MarketBar :=
  [mkBar 0 9 6 7, mkBar 1 10 5 7, mkBar 2 12 6 11, mkBar 3 9 4 4]

/-- Spec-side reading of one BOS bar iteration (C4): both directions
are evaluated independently against the same pre-bar broken set; each
direction takes the most recently formed unbroken swing of its type
with index below the current bar (the last such swing in time order,
regardless of price), emits an event on a strict break of its price,
and the events and newly broken indices of both directions are
appended to the state. -/
def bosSpecStep (useBody : Bool) (swings : List SwingPoint)
    (st : List BOSEvent × List ℕ) (i : ℕ) (bar : MarketBar) :
    List BOSEvent × List ℕ :=
  let bull : List BOSEvent × List ℕ :=
    match (swings.filter fun s => decide (s.swing_type = SwingType.HIGH) &&
        (decide (s.bar_index < i) && decide (s.bar_index ∉ st.2))).getLast? with
    | none => ([], [])
    | some hsw =>
      let bp := if useBody then bar.close else bar.high
      if hsw.price < bp then
        ([{ direction := BOSDirection.BULLISH, broken_swing := hsw
            break_price := bp, break_bar := bar, timestamp := bar.timestamp_utc }],
         [hsw.bar_index])
      else ([], [])
  let bear : List BOSEvent × List ℕ :=
    match (swings.filter fun s => decide (s.swing_type = SwingType.LOW) &&
        (decide (s.bar_index < i) && decide (s.bar_index ∉ st.2))).getLast? with
    | none => ([], [])
    | some lsw =>
      let bp := if useBody then bar.close else bar.low
      if bp < lsw.price then
        ([{ direction := BOSDirection.BEARISH, broken_swing := lsw
            break_price := bp, break_bar := bar, timestamp := bar.timestamp_utc }],
         [lsw.bar_index])
      else ([], [])
  (st.1 ++ bull.1 ++ bear.1, st.2 ++ bull.2 ++ bear.2)

/-- Spec-side BOS detection: same guard, folding `bosSpecStep`. -/
def detect_bosSpec (useBody : Bool) (bars : List MarketBar)
    (swings : List SwingPoint) : List BOSEvent :=
  if swings.isEmpty || bars.length < 2 then []
  else (bars.enum.foldl (fun st p => bosSpecStep useBody swings st p.1 p.2) ([], [])).1

/-- An older swing high at bar index 0 with the higher price 20. -/
def hswOld : SwingPoint :=
  { timestamp := 0, price := 20, swing_type := SwingType.HIGH
    bar_index := 0, lookback := 1, strength := 0 }

/-- A more recent swing high at bar index 1 with the lower price 10. -/
def hswNew : SwingPoint :=
  { timestamp := 1, price := 10, swing_type := SwingType.HIGH
    bar_index := 1, lookback := 1, strength := 0 }

/-- Three ordered bars whose last close 25 exceeds both swing highs. -/
def barsR : List MarketBar :=
  [mkBar 0 19 1 5, mkBar 1 19 1 5, mkBar 2 30 1 25]

/-- Eleven strictly time-ordered bars whose bar 5 holds the strict
maximum high (100) over all eleven bars. -/
def bars11 : List MarketBar :=
  [mkBar 0 1 1 1, mkBar 1 2 1 1, mkBar 2 3 1 1, mkBar 3 4 1 1, mkBar 4 5 1 1,
   mkBar 5 100 1 1, mkBar 6 6 1 1, mkBar 7 7 1 1, mkBar 8 8 1 1, mkBar 9 9 1 1,
   mkBar 10 10 1 1]

/-- The unique swing detected in `bars11` with lookback 5. -/
def swing11 : SwingPoint :=
  { timestamp := 5, price := 100, swing_type := SwingType.HIGH
    bar_index := 5, lookback := 5, strength := 10 }

/-- C3's reading of the trend rules, phrased from the spec: UNKNOWN on
too few highs or lows; otherwise BULLISH when the higher-highs run
reaches `min_swings_for_trend - 1` and the last two lows are strictly
increasing; otherwise BEARISH with the mirrored conditions; otherwise
RANGING — bullish checked first. -/
def trendSpec (m : ℤ) (swings : List SwingPoint) : Prop :=
  let highs := highsOf swings
  let lows := lowsOf swings
  let few : Prop := (highs.length : ℤ) < m ∨ (lows.length : ℤ) < m
  let bull : Prop := m - 1 ≤ (higher_highs_count highs : ℤ) ∧
    ∃ a b, lows.dropLast.getLast? = some a ∧ lows.getLast? = some b ∧ a.price < b.price
  let bear : Prop := m - 1 ≤ (lower_lows_count lows : ℤ) ∧
    ∃ a b, highs.dropLast.getLast? = some a ∧ highs.getLast? = some b ∧ b.price < a.price
  ((analyze_structure m swings).trend = TrendState.UNKNOWN ↔ few) ∧
  ((analyze_structure m swings).trend = TrendState.BULLISH ↔ ¬few ∧ bull) ∧
  ((analyze_structure m swings).trend = TrendState.BEARISH ↔ ¬few ∧ ¬bull ∧ bear) ∧
  ((analyze_structure m swings).trend = TrendState.RANGING ↔ ¬few ∧ ¬bull ∧ ¬bear)

/-- Four swings: rising highs 10 → 12 and rising lows 5 → 7. -/
def swingsC3 : List SwingPoint :=
  [{ timestamp := 0, price := 10, swing_type := SwingType.HIGH, bar_index := 0, lookback := 1, strength := 0 },
   { timestamp := 1, price := 5, swing_type := SwingType.LOW, bar_index := 1, lookback := 1, strength := 0 },
   { timestamp := 2, price := 12, swing_type := SwingType.HIGH, bar_index := 2, lookback := 1, strength := 0 },
   { timestamp := 3, price := 7, swing_type := SwingType.LOW, bar_index := 3, lookback := 1, strength := 0 }]

/-- The single swing detected in `barsA9`. -/
def swingA9 : SwingPoint :=
  { timestamp := 1, price := 20, swing_type := SwingType.HIGH
    bar_index := 1, lookback := 1, strength := 2 }

/-- The single swing detected in `barsB9`. -/
def swingB9 : SwingPoint :=
  { timestamp := 1, price := 30, swing_type := SwingType.HIGH
    bar_index := 1, lookback := 1, strength := 2 }

/-! ## Helper lemmas -/

/-- Adjacent-bar timestamp growth extracted from `strictTimeOrdered`. -/
theorem ts_adj {bars : List MarketBar} (h : strictTimeOrdered bars = true) :
    ∀ k, k + 1 < bars.length →
      (barAt bars k).timestamp_utc < (barAt bars (k + 1)).timestamp_utc := by
  intro k hk
  have hall := List.all_eq_true.mp h k (List.mem_range.mpr (by omega))
  exact of_decide_eq_true hall

/-- Strict timestamp monotonicity across any pair of in-range indices. -/
theorem ts_mono {bars : List MarketBar} (h : strictTimeOrdered bars = true) :
    ∀ i j, i < j → j < bars.length →
      (barAt bars i).timestamp_utc < (barAt bars j).timestamp_utc := by
  intro i j
  induction j with
  | zero => omega
  | succ k ih =>
    intro hij hlen
    have hadj := ts_adj h k hlen
    rcases Nat.lt_succ_iff_lt_or_eq.mp hij with hlt | heq
    · exact lt_trans (ih hlt (by omega)) hadj
    · subst heq; exact hadj

/-- Membership in the per-index emission list. -/
theorem mem_emitAt {lb : ℕ} {bars : List MarketBar} {i : ℕ} {s : SwingPoint} :
    s ∈ emitAt lb bars i ↔
      (isSwingHigh lb bars i = true ∧ s = highPointAt lb bars i) ∨
      (isSwingLow lb bars i = true ∧ s = lowPointAt lb bars i) := by
  unfold emitAt
  cases h1 : isSwingHigh lb bars i <;> cases h2 : isSwingLow lb bars i <;>
    simp [h1, h2]

/-- Every emitted swing carries the timestamp of its bar. -/
theorem ts_of_mem_emitAt {lb : ℕ} {bars : List MarketBar} {i : ℕ} {s : SwingPoint}
    (h : s ∈ emitAt lb bars i) : s.timestamp = (barAt bars i).timestamp_utc := by
  rcases mem_emitAt.mp h with ⟨_, rfl⟩ | ⟨_, rfl⟩ <;> rfl

/-- Every emitted swing carries its loop index as `bar_index`. -/
theorem idx_of_mem_emitAt {lb : ℕ} {bars : List MarketBar} {i : ℕ} {s : SwingPoint}
    (h : s ∈ emitAt lb bars i) : s.bar_index = i := by
  rcases mem_emitAt.mp h with ⟨_, rfl⟩ | ⟨_, rfl⟩ <;> rfl

/-- The concatenated emission list over `range' s n` is sorted by
timestamp: detection walks bars in time order. -/
theorem pairwise_emit (lb : ℕ) {bars : List MarketBar}
    (h : strictTimeOrdered bars = true) :
    ∀ n s : ℕ, s + n ≤ bars.length →
      ((List.range' s n).flatMap (emitAt lb bars)).Pairwise
        (fun a b => a.timestamp ≤ b.timestamp) := by
  intro n
  induction n with
  | zero => intro s _; simp
  | succ m ih =>
    intro s hs
    rw [List.range'_succ]
    simp only [List.flatMap_cons]
    rw [List.pairwise_append]
    refine ⟨?_, ih (s + 1) (by omega), ?_⟩
    · unfold emitAt
      split <;> split <;> simp [highPointAt, lowPointAt]
    · intro a ha b hb
      rcases List.mem_flatMap.mp hb with ⟨j, hj, hbj⟩
      have hj1 := List.mem_range'_1.mp hj
      rw [ts_of_mem_emitAt ha, ts_of_mem_emitAt hbj]
      exact le_of_lt (ts_mono h s j (by omega) (by omega))

/-- On long-enough ordered input, `detect_swings` succeeds and the final
sort is the identity: the emission list is already time-sorted. -/
theorem detect_swings_eq_flatMap (lb : ℕ) (bars : List MarketBar)
    (hord : strictTimeOrdered bars = true) (hlen : 2 * lb + 1 ≤ bars.length) :
    detect_swings lb bars =
      Except.ok ((List.range' lb (bars.length - 2 * lb)).flatMap (emitAt lb bars)) := by
  unfold detect_swings
  rw [hord]
  have hne : bars.isEmpty = false := by
    cases bars with
    | nil => simp at hlen
    | cons b bs => rfl
  have hnl : ¬ bars.length < 2 * lb + 1 := by omega
  simp only [hne, Bool.false_eq_true, if_false, Bool.not_true, hnl]
  exact congrArg Except.ok
    (List.mergeSort_of_sorted
      ((pairwise_emit lb hord (bars.length - 2 * lb) lb (by omega)).imp
        fun hab => decide_eq_true hab))

/-! ## C5 -/

/-- C5 counterexample: `StructureAnalyzer.__init__` performs no
validation, so constructing an analyzer with `min_swings_for_trend = 0`
(< 1) succeeds instead of failing with an invalid-parameter error. -/
theorem C5_counterexample :
    mkStructureAnalyzer 0 = Except.ok { min_swings_for_trend := 0 } := rfl

/-- C5 (amended): constructing a SwingDetector with `lookback < 1` fails
with an invalid-parameter error at construction time, but constructing a
StructureAnalyzer never fails — its `__init__` stores
`min_swings_for_trend` without any validation. -/
theorem C5_amended_validation :
    (∀ lb : ℤ, lb < 1 → mkSwingDetector lb = Except.error "Lookback must be >= 1") ∧
    (∀ m : ℤ, mkStructureAnalyzer m = Except.ok { min_swings_for_trend := m }) := by
  refine ⟨fun lb h => ?_, fun m => rfl⟩
  simp [mkSwingDetector, h]

/-- Witness for C5: the amended theorem applied at `lookback = 0` and
`min_swings_for_trend = 0`. -/
theorem C5_amended_validation_witness :
    ((0 : ℤ) < 1 ∧ mkSwingDetector 0 = Except.error "Lookback must be >= 1") ∧
    mkStructureAnalyzer 0 = Except.ok { min_swings_for_trend := 0 } :=
  ⟨⟨by decide, C5_amended_validation.1 0 (by decide)⟩, C5_amended_validation.2 0⟩

/-! ## C8 -/

/-- C8: on a strictly time-ordered bar sequence with fewer than
`2*lookback + 1` bars, `detect_swings` quietly returns the empty list
(never an error). -/
theorem C8_insufficient_data_quiet (lb : ℕ) (bars : List MarketBar)
    (hord : strictTimeOrdered bars = true) (hlen : bars.length < 2 * lb + 1) :
    detect_swings lb bars = Except.ok [] := by
  unfold detect_swings
  rw [hord]
  simp [hlen]

/-- Witness for C8: one ordered bar with `lookback = 1` (1 < 3 bars). -/
theorem C8_insufficient_data_quiet_witness :
    (strictTimeOrdered [mkBar 0 2 1 1] = true ∧ [mkBar 0 2 1 1].length < 2 * 1 + 1) ∧
    detect_swings 1 [mkBar 0 2 1 1] = Except.ok [] :=
  ⟨⟨by decide, by decide⟩,
   C8_insufficient_data_quiet 1 [mkBar 0 2 1 1] (by decide) (by decide)⟩

/-! ## C2 -/

/-- C2 counterexample: on the non-empty, non-time-ordered `badBars`,
`detect_bos` and `detect_choch` do not fail — they scan the bars and
return ordinary event lists (here each even emits an event), so the
claim that every pipeline entry point re-validates ordering and raises
is false for BOS and CHoCH. -/
theorem C2_counterexample :
    strictTimeOrdered badBars = false ∧ badBars ≠ [] ∧
    detect_bos true badBars [cexHigh] =
      [{ direction := BOSDirection.BULLISH, broken_swing := cexHigh
         break_price := 12, break_bar := mkBar 4 13 3 12, timestamp := 4 }] ∧
    detect_choch true badBars [cexHigh] TrendState.BEARISH =
      [{ choch_type := CHoCHType.BEARISH_TO_BULLISH, broken_swing := cexHigh
         break_price := 12, break_bar := mkBar 4 13 3 12
         prior_trend := TrendState.BEARISH, timestamp := 4 }] := by
  refine ⟨by decide, by decide, by decide, by decide⟩

/-- C2 (amended): only `detect_swings` re-validates time ordering — it
raises a sequencing error on every non-empty, non-strictly-increasing
bar sequence — while `detect_bos` and `detect_choch` perform no such
validation and return results normally on the same invalid input. -/
theorem C2_amended_validation :
    (∀ (lb : ℕ) (bars : List MarketBar), bars ≠ [] → strictTimeOrdered bars = false →
      detect_swings lb bars = Except.error "Bars must be time-ordered") ∧
    detect_bos true badBars [cexHigh] =
      [{ direction := BOSDirection.BULLISH, broken_swing := cexHigh
         break_price := 12, break_bar := mkBar 4 13 3 12, timestamp := 4 }] ∧
    detect_choch true badBars [cexHigh] TrendState.BEARISH =
      [{ choch_type := CHoCHType.BEARISH_TO_BULLISH, broken_swing := cexHigh
         break_price := 12, break_bar := mkBar 4 13 3 12
         prior_trend := TrendState.BEARISH, timestamp := 4 }] := by
  refine ⟨fun lb bars hne hord => ?_, by decide, by decide⟩
  unfold detect_swings
  rw [hord]
  cases bars with
  | nil => exact absurd rfl hne
  | cons b bs => rfl

/-- Witness for C2: the amended theorem's sequencing-error branch
applied to the concrete `badBars`. -/
theorem C2_amended_validation_witness :
    (badBars ≠ [] ∧ strictTimeOrdered badBars = false) ∧
    detect_swings 1 badBars = Except.error "Bars must be time-ordered" :=
  ⟨⟨by decide, by decide⟩,
   C2_amended_validation.1 1 badBars (by decide) (by decide)⟩

/-! ## C9 -/

/-- C9 counterexample: two successive `detect_swings` calls on
independent inputs (`barsA9` then `barsB9`, one swing each); the second
call returns exactly one swing, yet `get_statistics` afterwards reports
`total_swings = 2` — the counters accumulate across calls instead of
reflecting only the most recent call. -/
theorem C9_counterexample :
    ((d0.detectSwings barsA9).2.detectSwings barsB9).1 = Except.ok [swingB9] ∧
    ((d0.detectSwings barsA9).2.detectSwings barsB9).2.get_statistics = (1, 2, 2, 0) ∧
    ((d0.detectSwings barsA9).2.detectSwings barsB9).2.swings_detected ≠
      ([swingB9] : List SwingPoint).length := by
  have hA : detect_swings 1 barsA9 = Except.ok [swingA9] := by
    rw [detect_swings_eq_flatMap 1 barsA9 (by decide) (by decide)]; rfl
  have h2 : d0.detectSwings barsA9 =
      (Except.ok [swingA9],
       { lookback := 1, swings_detected := 1, highs_detected := 1, lows_detected := 0 }) := by
    unfold SwingDetector.detectSwings
    have hl : d0.lookback = 1 := rfl
    rw [hl, hA]
    rfl
  have hB : detect_swings 1 barsB9 = Except.ok [swingB9] := by
    rw [detect_swings_eq_flatMap 1 barsB9 (by decide) (by decide)]; rfl
  have h3 : ({ lookback := 1, swings_detected := 1, highs_detected := 1,
               lows_detected := 0 } : SwingDetector).detectSwings barsB9 =
      (Except.ok [swingB9],
       { lookback := 1, swings_detected := 2, highs_detected := 2, lows_detected := 0 }) := by
    unfold SwingDetector.detectSwings
    have hl : ({ lookback := 1, swings_detected := 1, highs_detected := 1,
                 lows_detected := 0 } : SwingDetector).lookback = 1 := rfl
    rw [hl, hB]
    rfl
  rw [h2]
  refine ⟨by rw [h3], by rw [h3]; rfl, by rw [h3]; decide⟩

/-- C9 (amended): the statistics counters of a reusable `SwingDetector`
accumulate silently across calls — a successful call adds the new
swing counts onto the running totals, an erroring call leaves them
unchanged, and only an explicit `reset_statistics` clears them. -/
theorem C9_amended_statistics :
    (∀ (d : SwingDetector) (bars : List MarketBar) (l : List SwingPoint),
      detect_swings d.lookback bars = Except.ok l →
        (d.detectSwings bars).1 = Except.ok l ∧
        (d.detectSwings bars).2.get_statistics =
          (d.lookback, d.swings_detected + l.length,
           d.highs_detected + countHighs l, d.lows_detected + countLows l)) ∧
    (∀ (d : SwingDetector) (bars : List MarketBar) (e : String),
      detect_swings d.lookback bars = Except.error e →
        d.detectSwings bars = (Except.error e, d)) ∧
    (∀ d : SwingDetector, d.reset_statistics.get_statistics = (d.lookback, 0, 0, 0)) := by
  refine ⟨fun d bars l h => ?_, fun d bars e h => ?_, fun d => rfl⟩
  · unfold SwingDetector.detectSwings
    rw [h]
    exact ⟨rfl, rfl⟩
  · unfold SwingDetector.detectSwings
    rw [h]

/-- Witness for C9: the amended accumulation law applied to the fresh
detector `d0` and the bars `barsA9`. -/
theorem C9_amended_statistics_witness :
    detect_swings d0.lookback barsA9 = Except.ok [swingA9] ∧
    (d0.detectSwings barsA9).2.get_statistics =
      (d0.lookback, d0.swings_detected + [swingA9].length,
       d0.highs_detected + countHighs [swingA9],
       d0.lows_detected + countLows [swingA9]) :=
  ⟨by show detect_swings 1 barsA9 = Except.ok [swingA9]
      rw [detect_swings_eq_flatMap 1 barsA9 (by decide) (by decide)]; rfl,
   (C9_amended_statistics.1 d0 barsA9 [swingA9]
     (by show detect_swings 1 barsA9 = Except.ok [swingA9]
         rw [detect_swings_eq_flatMap 1 barsA9 (by decide) (by decide)]; rfl)).2⟩

/-! ## C3 -/

/-- `lastTwoRising` unpacked: the last two elements exist and their
prices strictly increase. -/
theorem lastTwoRising_iff (l : List SwingPoint) :
    lastTwoRising l = true ↔
      ∃ a b, l.dropLast.getLast? = some a ∧ l.getLast? = some b ∧ a.price < b.price := by
  unfold lastTwoRising
  simp only [Bool.and_eq_true, decide_eq_true_eq]
  constructor
  · rintro ⟨h2, hlt⟩
    have h0 : l.length - 2 < l.length := by omega
    have h1 : l.length - 1 < l.length := by omega
    have e2 : l.dropLast.getLast? = l[l.length - 2]? := by
      rw [List.getLast?_eq_getElem?, List.getElem?_dropLast, List.length_dropLast,
        if_pos (by omega), show l.length - 1 - 1 = l.length - 2 from by omega]
    refine ⟨l.get ⟨l.length - 2, h0⟩, l.get ⟨l.length - 1, h1⟩, ?_, ?_, ?_⟩
    · rw [e2]; simp [List.getElem?_eq_getElem h0]
    · rw [List.getLast?_eq_getElem?]; simp [List.getElem?_eq_getElem h1]
    · simpa [List.getD_eq_getElem?_getD, List.getElem?_eq_getElem, h0, h1] using hlt
  · rintro ⟨a, b, ha, hb, hab⟩
    have h2 : 2 ≤ l.length := by
      by_contra hcon
      have hz : l.dropLast.length = 0 := by rw [List.length_dropLast]; omega
      rw [List.eq_nil_of_length_eq_zero hz] at ha
      simp at ha
    have e2 : l.dropLast.getLast? = l[l.length - 2]? := by
      rw [List.getLast?_eq_getElem?, List.getElem?_dropLast, List.length_dropLast,
        if_pos (by omega), show l.length - 1 - 1 = l.length - 2 from by omega]
    rw [e2, List.getElem?_eq_getElem (show l.length - 2 < l.length by omega)] at ha
    rw [List.getLast?_eq_getElem?,
      List.getElem?_eq_getElem (show l.length - 1 < l.length by omega)] at hb
    refine ⟨h2, ?_⟩
    have ha2 := Option.some.inj ha
    have hb2 := Option.some.inj hb
    simp only [List.getD_eq_getElem?_getD,
      List.getElem?_eq_getElem (show l.length - 2 < l.length by omega),
      List.getElem?_eq_getElem (show l.length - 1 < l.length by omega),
      Option.getD_some, ha2, hb2]
    exact hab

/-- `lastTwoFalling` unpacked: the last two elements exist and their
prices strictly decrease. -/
theorem lastTwoFalling_iff (l : List SwingPoint) :
    lastTwoFalling l = true ↔
      ∃ a b, l.dropLast.getLast? = some a ∧ l.getLast? = some b ∧ b.price < a.price := by
  unfold lastTwoFalling
  simp only [Bool.and_eq_true, decide_eq_true_eq]
  constructor
  · rintro ⟨h2, hlt⟩
    have h0 : l.length - 2 < l.length := by omega
    have h1 : l.length - 1 < l.length := by omega
    have e2 : l.dropLast.getLast? = l[l.length - 2]? := by
      rw [List.getLast?_eq_getElem?, List.getElem?_dropLast, List.length_dropLast,
        if_pos (by omega), show l.length - 1 - 1 = l.length - 2 from by omega]
    refine ⟨l.get ⟨l.length - 2, h0⟩, l.get ⟨l.length - 1, h1⟩, ?_, ?_, ?_⟩
    · rw [e2]; simp [List.getElem?_eq_getElem h0]
    · rw [List.getLast?_eq_getElem?]; simp [List.getElem?_eq_getElem h1]
    · simpa [List.getD_eq_getElem?_getD, List.getElem?_eq_getElem, h0, h1] using hlt
  · rintro ⟨a, b, ha, hb, hab⟩
    have h2 : 2 ≤ l.length := by
      by_contra hcon
      have hz : l.dropLast.length = 0 := by rw [List.length_dropLast]; omega
      rw [List.eq_nil_of_length_eq_zero hz] at ha
      simp at ha
    have e2 : l.dropLast.getLast? = l[l.length - 2]? := by
      rw [List.getLast?_eq_getElem?, List.getElem?_dropLast, List.length_dropLast,
        if_pos (by omega), show l.length - 1 - 1 = l.length - 2 from by omega]
    rw [e2, List.getElem?_eq_getElem (show l.length - 2 < l.length by omega)] at ha
    rw [List.getLast?_eq_getElem?,
      List.getElem?_eq_getElem (show l.length - 1 < l.length by omega)] at hb
    refine ⟨h2, ?_⟩
    have ha2 := Option.some.inj ha
    have hb2 := Option.some.inj hb
    simp only [List.getD_eq_getElem?_getD,
      List.getElem?_eq_getElem (show l.length - 2 < l.length by omega),
      List.getElem?_eq_getElem (show l.length - 1 < l.length by omega),
      Option.getD_some, ha2, hb2]
    exact hab

/-- On non-empty input the returned trend is `_determine_trend` applied
to the partitioned sub-sequences and their run counters. -/
theorem analyze_structure_trend (m : ℤ) (swings : List SwingPoint) (hne : swings ≠ []) :
    (analyze_structure m swings).trend =
      determine_trend m (highsOf swings) (lowsOf swings)
        (higher_highs_count (highsOf swings)) (lower_lows_count (lowsOf swings)) := by
  unfold analyze_structure
  have he : swings.isEmpty = false := by
    cases swings with
    | nil => exact absurd rfl hne
    | cons a t => rfl
  rw [he]
  rfl

/-- C3: on non-empty swing input, `analyze_structure` classifies the
trend exactly as the claim states — UNKNOWN on too few highs or lows,
else BULLISH on a sufficient higher-highs run with strictly increasing
last two lows, else BEARISH on the mirrored conditions, else RANGING,
with the bullish check winning whenever both directions qualify. -/
theorem C3_trend_rules (m : ℤ) (swings : List SwingPoint) (hne : swings ≠ []) :
    trendSpec m swings := by
  unfold trendSpec
  simp only [← lastTwoRising_iff, ← lastTwoFalling_iff]
  rw [analyze_structure_trend m swings hne]
  unfold determine_trend
  by_cases hfew : ((highsOf swings).length : ℤ) < m ∨ ((lowsOf swings).length : ℤ) < m
  · rw [if_pos hfew]
    exact ⟨iff_of_true rfl hfew,
      iff_of_false (by simp) fun h => h.1 hfew,
      iff_of_false (by simp) fun h => h.1 hfew,
      iff_of_false (by simp) fun h => h.1 hfew⟩
  · rw [if_neg hfew]
    by_cases hb : m - 1 ≤ (higher_highs_count (highsOf swings) : ℤ) ∧
        lastTwoRising (lowsOf swings) = true
    · rw [if_pos hb]
      exact ⟨iff_of_false (by simp) hfew,
        iff_of_true rfl ⟨hfew, hb⟩,
        iff_of_false (by simp) fun h => h.2.1 hb,
        iff_of_false (by simp) fun h => h.2.1 hb⟩
    · rw [if_neg hb]
      by_cases hbe : m - 1 ≤ (lower_lows_count (lowsOf swings) : ℤ) ∧
          lastTwoFalling (highsOf swings) = true
      · rw [if_pos hbe]
        exact ⟨iff_of_false (by simp) hfew,
          iff_of_false (by simp) fun h => hb h.2,
          iff_of_true rfl ⟨hfew, hb, hbe⟩,
          iff_of_false (by simp) fun h => h.2.2 hbe⟩
      · rw [if_neg hbe]
        exact ⟨iff_of_false (by simp) hfew,
          iff_of_false (by simp) fun h => hb h.2,
          iff_of_false (by simp) fun h => hbe h.2.2,
          iff_of_true rfl ⟨hfew, hb, hbe⟩⟩

/-- Witness for C3: two rising highs and two rising lows with
`min_swings_for_trend = 2` (the trend comes out BULLISH). -/
theorem C3_trend_rules_witness : swingsC3 ≠ [] ∧ trendSpec 2 swingsC3 :=
  ⟨by decide, C3_trend_rules 2 swingsC3 (by decide)⟩

/-! ## C1 -/

/-- `detect_swings` on ordered but too-short input: quiet empty result
(shared helper). -/
theorem detect_swings_short {lb : ℕ} {bars : List MarketBar}
    (hord : strictTimeOrdered bars = true) (hlen : bars.length < 2 * lb + 1) :
    detect_swings lb bars = Except.ok [] := by
  unfold detect_swings
  rw [hord]
  simp [hlen]

/-- The boolean window check `_is_swing_high` unpacked into the spec's
quantified left-strict / right-non-strict conditions. -/
theorem isSwingHigh_iff {lb : ℕ} {bars : List MarketBar} {i : ℕ} (hi : lb ≤ i) :
    isSwingHigh lb bars i = true ↔
      ((∀ j, i - lb ≤ j → j < i → (barAt bars j).high < (barAt bars i).high) ∧
       (∀ j, i < j → j ≤ i + lb → (barAt bars j).high ≤ (barAt bars i).high)) := by
  unfold isSwingHigh
  simp only [Bool.and_eq_true, List.all_eq_true, List.mem_range, decide_eq_true_eq]
  constructor
  · rintro ⟨h1, h2⟩
    constructor
    · intro j hj1 hj2
      have hk : j - (i - lb) < lb := by omega
      have hh := h1 (j - (i - lb)) hk
      have heq : i - lb + (j - (i - lb)) = j := by omega
      rwa [heq] at hh
    · intro j hj1 hj2
      have hk : j - i - 1 < lb := by omega
      have hh := h2 (j - i - 1) hk
      have heq : i + 1 + (j - i - 1) = j := by omega
      rwa [heq] at hh
  · rintro ⟨g1, g2⟩
    constructor
    · intro k hk
      exact g1 (i - lb + k) (by omega) (by omega)
    · intro k hk
      exact g2 (i + 1 + k) (by omega) (by omega)

/-- The boolean window check `_is_swing_low` unpacked. -/
theorem isSwingLow_iff {lb : ℕ} {bars : List MarketBar} {i : ℕ} (hi : lb ≤ i) :
    isSwingLow lb bars i = true ↔
      ((∀ j, i - lb ≤ j → j < i → (barAt bars i).low < (barAt bars j).low) ∧
       (∀ j, i < j → j ≤ i + lb → (barAt bars i).low ≤ (barAt bars j).low)) := by
  unfold isSwingLow
  simp only [Bool.and_eq_true, List.all_eq_true, List.mem_range, decide_eq_true_eq]
  constructor
  · rintro ⟨h1, h2⟩
    constructor
    · intro j hj1 hj2
      have hk : j - (i - lb) < lb := by omega
      have hh := h1 (j - (i - lb)) hk
      have heq : i - lb + (j - (i - lb)) = j := by omega
      rwa [heq] at hh
    · intro j hj1 hj2
      have hk : j - i - 1 < lb := by omega
      have hh := h2 (j - i - 1) hk
      have heq : i + 1 + (j - i - 1) = j := by omega
      rwa [heq] at hh
  · rintro ⟨g1, g2⟩
    constructor
    · intro k hk
      exact g1 (i - lb + k) (by omega) (by omega)
    · intro k hk
      exact g2 (i + 1 + k) (by omega) (by omega)

/-- C1: for strictly time-ordered bars and `lookback ≥ 1`,
`detect_swings` succeeds and emits a HIGH swing at index `i` exactly
when `i` lies in the confirmed region and `bars[i].high` strictly
dominates the left window and weakly dominates the right window; the
LOW case is symmetric, and the two emissions are independent (one bar
may yield both). -/
theorem C1_swing_characterization (lb : ℕ) (bars : List MarketBar)
    (hlb : 1 ≤ lb) (hord : strictTimeOrdered bars = true) :
    ∃ l, detect_swings lb bars = Except.ok l ∧
      ∀ i : ℕ,
        ((∃ s, s ∈ l ∧ s.swing_type = SwingType.HIGH ∧ s.bar_index = i) ↔
          (lb ≤ i ∧ i + lb < bars.length ∧
            (∀ j, i - lb ≤ j → j < i → (barAt bars j).high < (barAt bars i).high) ∧
            (∀ j, i < j → j ≤ i + lb → (barAt bars j).high ≤ (barAt bars i).high))) ∧
        ((∃ s, s ∈ l ∧ s.swing_type = SwingType.LOW ∧ s.bar_index = i) ↔
          (lb ≤ i ∧ i + lb < bars.length ∧
            (∀ j, i - lb ≤ j → j < i → (barAt bars i).low < (barAt bars j).low) ∧
            (∀ j, i < j → j ≤ i + lb → (barAt bars i).low ≤ (barAt bars j).low))) := by
  by_cases hlen : bars.length < 2 * lb + 1
  · refine ⟨[], detect_swings_short hord hlen, fun i => ⟨⟨?_, ?_⟩, ⟨?_, ?_⟩⟩⟩
    · rintro ⟨s, hs, _⟩
      exact absurd hs (List.not_mem_nil s)
    · rintro ⟨h1, h2, _⟩
      exact absurd (And.intro h1 h2) (by omega)
    · rintro ⟨s, hs, _⟩
      exact absurd hs (List.not_mem_nil s)
    · rintro ⟨h1, h2, _⟩
      exact absurd (And.intro h1 h2) (by omega)
  · have hlen2 : 2 * lb + 1 ≤ bars.length := by omega
    refine ⟨_, detect_swings_eq_flatMap lb bars hord hlen2, fun i => ⟨⟨?_, ?_⟩, ⟨?_, ?_⟩⟩⟩
    · rintro ⟨s, hs, hty, hidx⟩
      obtain ⟨j, hj, hsj⟩ := List.mem_flatMap.mp hs
      obtain ⟨hj1, hj2⟩ := List.mem_range'_1.mp hj
      rcases mem_emitAt.mp hsj with ⟨hH, rfl⟩ | ⟨hL, rfl⟩
      · have hji : j = i := hidx
        subst hji
        obtain ⟨hl, hr⟩ := (isSwingHigh_iff hj1).mp hH
        exact ⟨hj1, by omega, hl, hr⟩
      · have : SwingType.LOW = SwingType.HIGH := hty
        cases this
    · rintro ⟨hi1, hi2, hleft, hright⟩
      refine ⟨highPointAt lb bars i, ?_, rfl, rfl⟩
      exact List.mem_flatMap.mpr
        ⟨i, List.mem_range'_1.mpr ⟨hi1, by omega⟩,
         mem_emitAt.mpr (Or.inl ⟨(isSwingHigh_iff hi1).mpr ⟨hleft, hright⟩, rfl⟩)⟩
    · rintro ⟨s, hs, hty, hidx⟩
      obtain ⟨j, hj, hsj⟩ := List.mem_flatMap.mp hs
      obtain ⟨hj1, hj2⟩ := List.mem_range'_1.mp hj
      rcases mem_emitAt.mp hsj with ⟨hH, rfl⟩ | ⟨hL, rfl⟩
      · have : SwingType.HIGH = SwingType.LOW := hty
        cases this
      · have hji : j = i := hidx
        subst hji
        obtain ⟨hl, hr⟩ := (isSwingLow_iff hj1).mp hL
        exact ⟨hj1, by omega, hl, hr⟩
    · rintro ⟨hi1, hi2, hleft, hright⟩
      refine ⟨lowPointAt lb bars i, ?_, rfl, rfl⟩
      exact List.mem_flatMap.mpr
        ⟨i, List.mem_range'_1.mpr ⟨hi1, by omega⟩,
         mem_emitAt.mpr (Or.inr ⟨(isSwingLow_iff hi1).mpr ⟨hleft, hright⟩, rfl⟩)⟩

/-- Witness for C1: `lookback = 1` on the three ordered bars `barsA9`. -/
theorem C1_swing_characterization_witness :
    (1 ≤ 1 ∧ strictTimeOrdered barsA9 = true) ∧
    (∃ l, detect_swings 1 barsA9 = Except.ok l ∧
      ∀ i : ℕ,
        ((∃ s, s ∈ l ∧ s.swing_type = SwingType.HIGH ∧ s.bar_index = i) ↔
          (1 ≤ i ∧ i + 1 < barsA9.length ∧
            (∀ j, i - 1 ≤ j → j < i → (barAt barsA9 j).high < (barAt barsA9 i).high) ∧
            (∀ j, i < j → j ≤ i + 1 → (barAt barsA9 j).high ≤ (barAt barsA9 i).high))) ∧
        ((∃ s, s ∈ l ∧ s.swing_type = SwingType.LOW ∧ s.bar_index = i) ↔
          (1 ≤ i ∧ i + 1 < barsA9.length ∧
            (∀ j, i - 1 ≤ j → j < i → (barAt barsA9 i).low < (barAt barsA9 j).low) ∧
            (∀ j, i < j → j ≤ i + 1 → (barAt barsA9 i).low ≤ (barAt barsA9 j).low)))) :=
  ⟨⟨by decide, by decide⟩, C1_swing_characterization 1 barsA9 (by decide) (by decide)⟩

/-! ## C7 -/

/-- `_calculate_strength` for a HIGH swing counts exactly the window
indices (swing bar excluded) whose high is strictly below the swing
high. -/
theorem calcStrength_high_card {lb i : ℕ} (bars : List MarketBar) (hi : lb ≤ i) :
    calcStrength lb bars i SwingType.HIGH =
      ((Finset.Icc (i - lb) (i + lb)).filter
        fun j => j ≠ i ∧ (barAt bars j).high < (barAt bars i).high).card := by
  have hn : i + lb + 1 - (i - lb) = 2 * lb + 1 := by omega
  have hIcc : ((Finset.Icc (i - lb) (i + lb)).filter
      fun j => j ≠ i ∧ (barAt bars j).high < (barAt bars i).high).card =
      ((List.range' (i - lb) (2 * lb + 1)).filter
        fun j => decide (j ≠ i ∧ (barAt bars j).high < (barAt bars i).high)).length := by
    rw [Nat.Icc_eq_range', hn]
    rfl
  rw [hIcc, List.range'_eq_map_range, List.filter_map, List.length_map]
  unfold calcStrength
  refine congrArg List.length (List.filter_congr ?_)
  intro k hk
  simp [Function.comp, Bool.decide_and]

/-- `_calculate_strength` for a LOW swing counts exactly the window
indices (swing bar excluded) whose low is strictly above the swing
low. -/
theorem calcStrength_low_card {lb i : ℕ} (bars : List MarketBar) (hi : lb ≤ i) :
    calcStrength lb bars i SwingType.LOW =
      ((Finset.Icc (i - lb) (i + lb)).filter
        fun j => j ≠ i ∧ (barAt bars i).low < (barAt bars j).low).card := by
  have hn : i + lb + 1 - (i - lb) = 2 * lb + 1 := by omega
  have hIcc : ((Finset.Icc (i - lb) (i + lb)).filter
      fun j => j ≠ i ∧ (barAt bars i).low < (barAt bars j).low).card =
      ((List.range' (i - lb) (2 * lb + 1)).filter
        fun j => decide (j ≠ i ∧ (barAt bars i).low < (barAt bars j).low)).length := by
    rw [Nat.Icc_eq_range', hn]
    rfl
  rw [hIcc, List.range'_eq_map_range, List.filter_map, List.length_map]
  unfold calcStrength
  refine congrArg List.length (List.filter_congr ?_)
  intro k hk
  simp [Function.comp, Bool.decide_and]

/-- C7: every swing emitted by `detect_swings` carries as `strength` the
count of the neighbouring window bars (the swing bar excluded) whose
extreme is strictly worse than the swing price — strictly lower highs
for a HIGH, strictly higher lows for a LOW; and on the concrete 11-bar,
lookback-5 input `bars11` the detector returns exactly one HIGH
SwingPoint, at index 5 with lookback 5 and strength 10. -/
theorem C7_strength_rule :
    (∀ (lb : ℕ) (bars : List MarketBar) (l : List SwingPoint),
      detect_swings lb bars = Except.ok l → ∀ s, s ∈ l →
        (s.swing_type = SwingType.HIGH →
          s.strength = ((Finset.Icc (s.bar_index - lb) (s.bar_index + lb)).filter
            fun j => j ≠ s.bar_index ∧ (barAt bars j).high < s.price).card) ∧
        (s.swing_type = SwingType.LOW →
          s.strength = ((Finset.Icc (s.bar_index - lb) (s.bar_index + lb)).filter
            fun j => j ≠ s.bar_index ∧ s.price < (barAt bars j).low).card)) ∧
    detect_swings 5 bars11 = Except.ok [swing11] := by
  constructor
  · intro lb bars l h s hs
    unfold detect_swings at h
    split at h
    · injection h with h2
      rw [← h2] at hs
      exact absurd hs (List.not_mem_nil s)
    split at h
    · exact Except.noConfusion h
    split at h
    · injection h with h2
      rw [← h2] at hs
      exact absurd hs (List.not_mem_nil s)
    · injection h with h2
      rw [← h2] at hs
      obtain ⟨j, hj, hsj⟩ := List.mem_flatMap.mp (List.mem_mergeSort.mp hs)
      obtain ⟨hj1, hj2⟩ := List.mem_range'_1.mp hj
      rcases mem_emitAt.mp hsj with ⟨hH, rfl⟩ | ⟨hL, rfl⟩
      · refine ⟨fun _ => calcStrength_high_card bars hj1, fun hty => ?_⟩
        have hx : SwingType.HIGH = SwingType.LOW := hty
        cases hx
      · refine ⟨fun hty => ?_, fun _ => calcStrength_low_card bars hj1⟩
        have hx : SwingType.LOW = SwingType.HIGH := hty
        cases hx
  · rw [detect_swings_eq_flatMap 5 bars11 (by decide) (by decide)]
    rfl

/-- Witness for C7: the strength law applied to the single swing of the
11-bar scenario (its strength is indeed the full window count 10). -/
theorem C7_strength_rule_witness :
    detect_swings 5 bars11 = Except.ok [swing11] ∧
    swing11 ∈ [swing11] ∧ swing11.swing_type = SwingType.HIGH ∧
    swing11.strength =
      ((Finset.Icc (swing11.bar_index - 5) (swing11.bar_index + 5)).filter
        fun j => j ≠ swing11.bar_index ∧ (barAt bars11 j).high < swing11.price).card := by
  have h : detect_swings 5 bars11 = Except.ok [swing11] := by
    rw [detect_swings_eq_flatMap 5 bars11 (by decide) (by decide)]
    rfl
  have hm : swing11 ∈ [swing11] := List.mem_singleton.mpr rfl
  exact ⟨h, hm, rfl, (C7_strength_rule.1 5 bars11 [swing11] h swing11 hm).1 rfl⟩

/-! ## C6 and C10: break-tracking invariants -/

/-- A property preserved by each fold step holds of the whole fold. -/
theorem foldl_inv {σ α : Type} {P : σ → Prop} {f : σ → α → σ}
    (hf : ∀ s a, P s → P (f s a)) :
    ∀ (l : List α) (s : σ), P s → P (l.foldl f s) := by
  intro l
  induction l with
  | nil => intro s hs; exact hs
  | cons a t ih => intro s hs; exact ih (f s a) (hf s a hs)

/-- Members of the `relevant_swings` list are prior and unbroken. -/
theorem mem_eligible {swings : List SwingPoint} {broken : List ℕ} {i : ℕ}
    {s : SwingPoint} (h : s ∈ eligibleSwings swings broken i) :
    s.bar_index < i ∧ s.bar_index ∉ broken := by
  unfold eligibleSwings at h
  have hp := List.of_mem_filter h
  simp only [Bool.and_eq_true, decide_eq_true_eq] at hp
  exact hp

/-- The last element of a type-filtered swing list is in the base list
and has the filtered type. -/
theorem getLast?_filter_type {l : List SwingPoint} {t : SwingType} {s : SwingPoint}
    (h : (l.filter fun x => decide (x.swing_type = t)).getLast? = some s) :
    s ∈ l ∧ s.swing_type = t := by
  have hm := List.mem_of_getLast?_eq_some h
  refine ⟨List.mem_of_mem_filter hm, ?_⟩
  have hp := List.of_mem_filter hm
  simpa using hp

/-- Appending one event whose broken index is fresh preserves the
invariant. -/
theorem brokenInv_append_one {ε : Type} {bswing : ε → SwingPoint} {bbar : ε → MarketBar}
    {st : List ε × List ℕ} (h : brokenInv bswing bbar st) (e : ε)
    (hni : (bswing e).bar_index ∉ st.2) :
    brokenInv bswing bbar (st.1 ++ [e], st.2 ++ [(bswing e).bar_index]) := by
  obtain ⟨h1, h2⟩ := h
  constructor
  · intro x hx
    rcases List.mem_append.mp hx with hx | hx
    · exact List.mem_append_left _ (h1 x hx)
    · rw [List.mem_singleton.mp hx]
      exact List.mem_append_right _ (List.mem_singleton.mpr rfl)
  · rw [List.pairwise_append]
    refine ⟨h2, List.pairwise_singleton _ _, ?_⟩
    intro a ha b hb
    rw [List.mem_singleton.mp hb]
    have hidx := h1 a ha
    constructor
    · intro heq; rw [heq] at hidx; exact hni hidx
    · intro hie; exact absurd (hie ▸ hidx) hni

/-- Appending the bullish and then the bearish event of one bar
iteration preserves the invariant even when the two events break swings
sharing one bar index: both events carry the same breaking bar. -/
theorem brokenInv_append_two {ε : Type} {bswing : ε → SwingPoint} {bbar : ε → MarketBar}
    {st : List ε × List ℕ} (h : brokenInv bswing bbar st) (e1 e2 : ε)
    (h1 : (bswing e1).bar_index ∉ st.2) (h2 : (bswing e2).bar_index ∉ st.2)
    (hne : bswing e1 ≠ bswing e2) (hbar : bbar e1 = bbar e2) :
    brokenInv bswing bbar
      (st.1 ++ [e1] ++ [e2], st.2 ++ [(bswing e1).bar_index] ++ [(bswing e2).bar_index]) := by
  have hstep := brokenInv_append_one h e1 h1
  obtain ⟨g1, g2⟩ := hstep
  constructor
  · intro x hx
    rcases List.mem_append.mp hx with hx | hx
    · exact List.mem_append_left _ (g1 x hx)
    · rw [List.mem_singleton.mp hx]
      exact List.mem_append_right _ (List.mem_singleton.mpr rfl)
  · rw [List.pairwise_append]
    refine ⟨g2, List.pairwise_singleton _ _, ?_⟩
    intro a ha b hb
    rw [List.mem_singleton.mp hb]
    rcases List.mem_append.mp ha with ha | ha
    · have hidx := h.1 a ha
      constructor
      · intro heq; rw [heq] at hidx; exact h2 hidx
      · intro hie; exact absurd (hie ▸ hidx) h2
    · rw [List.mem_singleton.mp ha]
      exact ⟨hne, fun _ => hbar⟩

/-- One `detect_bos` loop iteration preserves the break-tracking
invariant. -/
theorem bosStep_inv (useBody : Bool) (swings : List SwingPoint)
    (st : List BOSEvent × List ℕ) (i : ℕ) (bar : MarketBar)
    (h : brokenInv BOSEvent.broken_swing BOSEvent.break_bar st) :
    brokenInv BOSEvent.broken_swing BOSEvent.break_bar (bosStep useBody swings st i bar) := by
  unfold bosStep
  by_cases hemp : (eligibleSwings swings st.2 i).isEmpty = true
  · rw [if_pos hemp]; exact h
  · rw [if_neg hemp]
    cases hH : ((eligibleSwings swings st.2 i).filter
        fun s => decide (s.swing_type = SwingType.HIGH)).getLast? with
    | none =>
      cases hL : ((eligibleSwings swings st.2 i).filter
          fun s => decide (s.swing_type = SwingType.LOW)).getLast? with
      | none => simp only [hH, hL]; exact h
      | some lastLow =>
        obtain ⟨hmemL, htyL⟩ := getLast?_filter_type hL
        obtain ⟨hltL, hninL⟩ := mem_eligible hmemL
        simp only [hH, hL]
        by_cases hpL : (if useBody = true then bar.close else bar.low) < lastLow.price
        · rw [if_pos hpL]
          exact brokenInv_append_one h _ hninL
        · rw [if_neg hpL]; exact h
    | some lastHigh =>
      obtain ⟨hmemH, htyH⟩ := getLast?_filter_type hH
      obtain ⟨hltH, hninH⟩ := mem_eligible hmemH
      by_cases hpH : lastHigh.price < (if useBody = true then bar.close else bar.high)
      · cases hL : ((eligibleSwings swings st.2 i).filter
            fun s => decide (s.swing_type = SwingType.LOW)).getLast? with
        | none =>
          simp only [hH, hL]
          rw [if_pos hpH]
          exact brokenInv_append_one h _ hninH
        | some lastLow =>
          obtain ⟨hmemL, htyL⟩ := getLast?_filter_type hL
          obtain ⟨hltL, hninL⟩ := mem_eligible hmemL
          simp only [hH, hL]
          rw [if_pos hpH]
          by_cases hpL : (if useBody = true then bar.close else bar.low) < lastLow.price
          · rw [if_pos hpL]
            refine brokenInv_append_two h _ _ hninH hninL ?_ rfl
            intro heq
            have heq2 : lastHigh = lastLow := heq
            rw [heq2, htyL] at htyH
            cases htyH
          · rw [if_neg hpL]
            exact brokenInv_append_one h _ hninH
      · cases hL : ((eligibleSwings swings st.2 i).filter
            fun s => decide (s.swing_type = SwingType.LOW)).getLast? with
        | none =>
          simp only [hH, hL]
          rw [if_neg hpH]
          exact h
        | some lastLow =>
          obtain ⟨hmemL, htyL⟩ := getLast?_filter_type hL
          obtain ⟨hltL, hninL⟩ := mem_eligible hmemL
          simp only [hH, hL]
          rw [if_neg hpH]
          by_cases hpL : (if useBody = true then bar.close else bar.low) < lastLow.price
          · rw [if_pos hpL]
            exact brokenInv_append_one h _ hninL
          · rw [if_neg hpL]; exact h

/-- One `detect_choch` loop iteration preserves the break-tracking
invariant. -/
theorem chochStep_inv (useBody : Bool) (trend : TrendState) (swings : List SwingPoint)
    (st : List CHoCHEvent × List ℕ) (i : ℕ) (bar : MarketBar)
    (h : brokenInv CHoCHEvent.broken_swing CHoCHEvent.break_bar st) :
    brokenInv CHoCHEvent.broken_swing CHoCHEvent.break_bar
      (chochStep useBody trend swings st i bar) := by
  unfold chochStep
  by_cases hemp : (eligibleSwings swings st.2 i).isEmpty = true
  · rw [if_pos hemp]; exact h
  · rw [if_neg hemp]
    by_cases hbu : trend = TrendState.BULLISH
    · rw [if_pos hbu]
      cases hL : ((eligibleSwings swings st.2 i).filter
          fun s => decide (s.swing_type = SwingType.LOW)).getLast? with
      | none => simp only [hL]; exact h
      | some lastLow =>
        obtain ⟨hmemL, htyL⟩ := getLast?_filter_type hL
        obtain ⟨hltL, hninL⟩ := mem_eligible hmemL
        simp only [hL]
        by_cases hpL : (if useBody = true then bar.close else bar.low) < lastLow.price
        · rw [if_pos hpL]
          exact brokenInv_append_one h _ hninL
        · rw [if_neg hpL]; exact h
    · rw [if_neg hbu]
      by_cases hbe : trend = TrendState.BEARISH
      · rw [if_pos hbe]
        cases hH : ((eligibleSwings swings st.2 i).filter
            fun s => decide (s.swing_type = SwingType.HIGH)).getLast? with
        | none => simp only [hH]; exact h
        | some lastHigh =>
          obtain ⟨hmemH, htyH⟩ := getLast?_filter_type hH
          obtain ⟨hltH, hninH⟩ := mem_eligible hmemH
          simp only [hH]
          by_cases hpH : lastHigh.price < (if useBody = true then bar.close else bar.high)
          · rw [if_pos hpH]
            exact brokenInv_append_one h _ hninH
          · rw [if_neg hpH]; exact h
      · rw [if_neg hbe]; exact h

/-- The full `detect_bos` result breaks pairwise distinct swings, and
any two events breaking co-indexed swings come from the same bar. -/
theorem detect_bos_pairwise (useBody : Bool) (bars : List MarketBar)
    (swings : List SwingPoint) :
    (detect_bos useBody bars swings).Pairwise
      (fun a b => a.broken_swing ≠ b.broken_swing ∧
        (a.broken_swing.bar_index = b.broken_swing.bar_index →
          a.break_bar = b.break_bar)) := by
  unfold detect_bos
  split
  · exact List.Pairwise.nil
  · exact (foldl_inv (fun st p hp => bosStep_inv useBody swings st p.1 p.2 hp)
      bars.enum ([], []) ⟨by simp, List.Pairwise.nil⟩).2

/-- The full `detect_choch` result breaks pairwise distinct swings. -/
theorem detect_choch_pairwise (useBody : Bool) (bars : List MarketBar)
    (swings : List SwingPoint) (trend : TrendState) :
    (detect_choch useBody bars swings trend).Pairwise
      (fun a b => a.broken_swing ≠ b.broken_swing ∧
        (a.broken_swing.bar_index = b.broken_swing.bar_index →
          a.break_bar = b.break_bar)) := by
  unfold detect_choch
  split
  · exact List.Pairwise.nil
  · exact (foldl_inv (fun st p hp => chochStep_inv useBody trend swings st p.1 p.2 hp)
      bars.enum ([], []) ⟨by simp, List.Pairwise.nil⟩).2

/-- A list whose elements have pairwise distinct images under `f`
contains at most one element of any given image. -/
theorem length_filter_le_one {α β : Type} [DecidableEq β] (f : α → β) :
    ∀ l : List α, l.Pairwise (fun a b => f a ≠ f b) →
      ∀ y : β, ((l.filter fun a => decide (f a = y)).length ≤ 1) := by
  intro l
  induction l with
  | nil => intro _ y; simp
  | cons a t ih =>
    intro hp y
    rw [List.pairwise_cons] at hp
    obtain ⟨ha, ht⟩ := hp
    rw [List.filter_cons]
    by_cases hy : f a = y
    · have hnil : t.filter (fun x => decide (f x = y)) = [] := by
        rw [List.filter_eq_nil_iff]
        intro x hx
        simp only [decide_eq_true_eq]
        intro hfx
        exact (ha x hx) (by rw [hfx, hy])
      simp [hy, hnil]
    · rw [if_neg (by simp [hy])]
      exact ih ht y

/-- C6: within a single `detect_bos` run every swing is broken at most
once, within a single `detect_choch` run every swing is broken at most
once, and the two detectors track broken swings independently: on the
same input (`barsB`, swings `sw1`/`sw2`), BOS breaks `sw2` and CHoCH
under a BULLISH trend breaks the very same `sw2` again. -/
theorem C6_at_most_one_break :
    (∀ (useBody : Bool) (bars : List MarketBar) (swings : List SwingPoint) (s : SwingPoint),
      ((detect_bos useBody bars swings).filter
        fun e => decide (e.broken_swing = s)).length ≤ 1) ∧
    (∀ (useBody : Bool) (bars : List MarketBar) (swings : List SwingPoint)
        (trend : TrendState) (s : SwingPoint),
      ((detect_choch useBody bars swings trend).filter
        fun e => decide (e.broken_swing = s)).length ≤ 1) ∧
    ((detect_bos true barsB [sw1, sw2]).map fun e => e.broken_swing) = [sw2] ∧
    ((detect_choch true barsB [sw1, sw2] TrendState.BULLISH).map
      fun e => e.broken_swing) = [sw2] :=
  ⟨fun useBody bars swings s =>
      length_filter_le_one _ _
        ((detect_bos_pairwise useBody bars swings).imp fun hab => hab.1) s,
   fun useBody bars swings trend s =>
      length_filter_le_one _ _
        ((detect_choch_pairwise useBody bars swings trend).imp fun hab => hab.1) s,
   by decide, by decide⟩

/-! ## C4 -/

/-- Filtering the eligible swings by type equals one combined filter. -/
theorem filter_type_eligible (swings : List SwingPoint) (broken : List ℕ)
    (i : ℕ) (t : SwingType) :
    (swings.filter fun s => decide (s.swing_type = t) &&
        (decide (s.bar_index < i) && decide (s.bar_index ∉ broken))) =
      (eligibleSwings swings broken i).filter fun s => decide (s.swing_type = t) := by
  unfold eligibleSwings
  rw [List.filter_filter]

/-- The sequential Python iteration equals the independent, claim-side
per-bar evaluation: the bearish block reads the candidate list computed
before the bullish block's update, so both directions act on the same
pre-bar state. -/
theorem bosStep_eq_spec (useBody : Bool) (swings : List SwingPoint)
    (st : List BOSEvent × List ℕ) (i : ℕ) (bar : MarketBar) :
    bosStep useBody swings st i bar = bosSpecStep useBody swings st i bar := by
  unfold bosStep bosSpecStep
  rw [filter_type_eligible swings st.2 i SwingType.HIGH,
    filter_type_eligible swings st.2 i SwingType.LOW]
  by_cases hemp : (eligibleSwings swings st.2 i).isEmpty = true
  · rw [if_pos hemp, List.isEmpty_iff.mp hemp]
    simp
  · rw [if_neg hemp]
    cases hH : ((eligibleSwings swings st.2 i).filter
        fun s => decide (s.swing_type = SwingType.HIGH)).getLast? with
    | none =>
      cases hL : ((eligibleSwings swings st.2 i).filter
          fun s => decide (s.swing_type = SwingType.LOW)).getLast? with
      | none => simp [hH, hL]
      | some lastLow =>
        simp only [hH, hL]
        by_cases hpL : (if useBody = true then bar.close else bar.low) < lastLow.price
        · simp [hpL]
        · simp [hpL]
    | some lastHigh =>
      cases hL : ((eligibleSwings swings st.2 i).filter
          fun s => decide (s.swing_type = SwingType.LOW)).getLast? with
      | none =>
        simp only [hH, hL]
        by_cases hpH : lastHigh.price < (if useBody = true then bar.close else bar.high)
        · simp [hpH]
        · simp [hpH]
      | some lastLow =>
        simp only [hH, hL]
        by_cases hpH : lastHigh.price < (if useBody = true then bar.close else bar.high)
        · by_cases hpL : (if useBody = true then bar.close else bar.low) < lastLow.price
          · simp [hpH, hpL]
          · simp [hpH, hpL]
        · by_cases hpL : (if useBody = true then bar.close else bar.low) < lastLow.price
          · simp [hpH, hpL]
          · simp [hpH, hpL]

/-- C4: `detect_bos` implements exactly the claim's per-bar logic
(`detect_bosSpec`, built from the claim's wording); moreover in wick
mode one bar can emit a bullish and a bearish event simultaneously
(`barsB`, where bar 2's high pierces `sw1` and its low pierces `sw2`),
and the broken swing is the most recently formed eligible one, not the
highest-priced one (`barsR`: bar 2's close 25 exceeds both highs, yet
the event breaks the newer, cheaper `hswNew`). -/
theorem C4_bos_per_bar_logic :
    (∀ (useBody : Bool) (bars : List MarketBar) (swings : List SwingPoint),
      detect_bos useBody bars swings = detect_bosSpec useBody bars swings) ∧
    detect_bos false barsB [sw1, sw2] =
      [{ direction := BOSDirection.BULLISH, broken_swing := sw1, break_price := 12
         break_bar := mkBar 2 12 3 7, timestamp := 2 },
       { direction := BOSDirection.BEARISH, broken_swing := sw2, break_price := 3
         break_bar := mkBar 2 12 3 7, timestamp := 2 }] ∧
    (hswNew.price < hswOld.price ∧
      detect_bos true barsR [hswOld, hswNew] =
        [{ direction := BOSDirection.BULLISH, broken_swing := hswNew, break_price := 25
           break_bar := mkBar 2 30 1 25, timestamp := 2 }]) :=
  ⟨fun useBody bars swings => by
      unfold detect_bos detect_bosSpec
      have hstep : (fun (st : List BOSEvent × List ℕ) (p : ℕ × MarketBar) =>
          bosStep useBody swings st p.1 p.2) =
          fun st p => bosSpecStep useBody swings st p.1 p.2 :=
        funext fun st => funext fun p => bosStep_eq_spec useBody swings st p.1 p.2
      rw [hstep],
   by decide, by decide, by decide⟩

/-- C10: `detect_bos` retires swings by bar index, so two BOS events can
break co-indexed swings only from the same breaking bar — once a bar
breaks one of two swings sharing an index, no later bar can break the
other.  Concretely (`barsC10`): the bullish BOS at bar 2 breaks the
swing high `sw1` at index 1, and although bar 3 closes below the
co-indexed, never-broken swing low `sw2`, the run emits no bearish
event at all. -/
theorem C10_index_keyed_breaking :
    (∀ (useBody : Bool) (bars : List MarketBar) (swings : List SwingPoint),
      (detect_bos useBody bars swings).Pairwise
        fun a b => a.broken_swing.bar_index = b.broken_swing.bar_index →
          a.break_bar = b.break_bar) ∧
    (barAt barsC10 3).close < sw2.price ∧
    detect_bos true barsC10 [sw1, sw2] =
      [{ direction := BOSDirection.BULLISH, broken_swing := sw1, break_price := 11
         break_bar := mkBar 2 12 6 11, timestamp := 2 }] :=
  ⟨fun useBody bars swings =>
      (detect_bos_pairwise useBody bars swings).imp fun hab => hab.2,
   by decide, by decide⟩

end MarketStructure
